import Mathlib

set_option maxRecDepth 8192

/-!
Shallow embedding of the EscrowService escrow state machine
(src/escrow/models.py, serializers.py, permissions.py, views.py, tasks.py).

Timestamps are abstract integers; the decimal `amount` is an integer number
of cents.  The database is a list of `Escrow` rows ordered by primary key;
the primary-key uniqueness the database enforces appears as a `Nodup`
hypothesis on the row ids where a proof needs it.
-/

namespace EscrowService

/-- Escrow state enumeration (`Escrow.State` in src/escrow/models.py). -/
inductive State
  | CREATED
  | FUNDED
  | RELEASED
  | REFUNDED
  | EXPIRED
  deriving Repr, DecidableEq

/-- RELEASED, REFUNDED and EXPIRED are the terminal states. -/
def State.isTerminal : State → Bool
  | .RELEASED => true
  | .REFUNDED => true
  | .EXPIRED => true
  | _ => false

/-- One escrow row (`Escrow` model in src/escrow/models.py). -/
structure Escrow where
  id : Nat
  buyer_id : String
  seller_id : String
  amount : Int
  currency : String
  state : State
  expires_at : Option Int
  created_at : Int
  updated_at : Int
  funded_at : Option Int
  released_at : Option Int
  refunded_at : Option Int
  expired_at : Option Int
  version : Nat
  deriving Repr, DecidableEq

/-- The two `ValueError` situations of the transition methods: the
pre-check on the loaded state fails, or the conditional update matched
no row (`state changed by concurrent action`). -/
inductive TransitionError
  | invalidTransition
  | versionConflict
  deriving Repr, DecidableEq

/-- `getattr(settings, "ESCROW_DEFAULT_EXPIRATION_SECONDS", 24 * 3600)`:
the default used when the setting is absent. -/
def defaultExpirationSeconds : Int := 24 * 3600

/-- `Escrow.fund` (src/escrow/models.py): CREATED -> FUNDED, sets
`funded_at`, `expires_at = now + seconds` and bumps `version` via
`_set_state`; any other starting state raises `ValueError`.
`cfgSeconds` models the optional `ESCROW_DEFAULT_EXPIRATION_SECONDS`
setting consulted through `getattr`. -/
def Escrow.fund (self : Escrow) (now : Int) (cfgSeconds : Option Int) :
    Except TransitionError Escrow :=
  if self.state ≠ State.CREATED then
    .error .invalidTransition
  else
    .ok { self with
      funded_at := some now,
      expires_at := some (now + cfgSeconds.getD defaultExpirationSeconds),
      state := State.FUNDED,
      version := self.version + 1,
      updated_at := now }

/-- `Escrow.release` (src/escrow/models.py): pre-check on the loaded
instance `self`, then a conditional update against the current database
row `dbRec` filtered on `state = FUNDED` and `version = self.version`;
a non-matching filter raises `ValueError` (modelled `versionConflict`). -/
def Escrow.release (self : Escrow) (dbRec : Escrow) (now : Int) :
    Except TransitionError Escrow :=
  if self.state ≠ State.FUNDED then
    .error .invalidTransition
  else if dbRec.state = State.FUNDED ∧ dbRec.version = self.version then
    .ok { dbRec with
      state := State.RELEASED,
      released_at := some now,
      version := dbRec.version + 1,
      updated_at := now }
  else
    .error .versionConflict

/-- `Escrow.refund` (src/escrow/models.py): same shape as `release`. -/
def Escrow.refund (self : Escrow) (dbRec : Escrow) (now : Int) :
    Except TransitionError Escrow :=
  if self.state ≠ State.FUNDED then
    .error .invalidTransition
  else if dbRec.state = State.FUNDED ∧ dbRec.version = self.version then
    .ok { dbRec with
      state := State.REFUNDED,
      refunded_at := some now,
      version := dbRec.version + 1,
      updated_at := now }
  else
    .error .versionConflict

/-- The row produced by the conditional update of `Escrow.expire`. -/
def mkExpired (e : Escrow) (now : Int) : Escrow :=
  { e with
    state := State.EXPIRED,
    expired_at := some now,
    version := e.version + 1,
    updated_at := now }

/-- `Escrow.expire` (src/escrow/models.py): FUNDED -> EXPIRED; a
non-FUNDED loaded state or a lost conditional update returns silently
instead of raising.  The boolean reports whether the row was updated. -/
def Escrow.expire (self : Escrow) (dbRec : Escrow) (now : Int) :
    Escrow × Bool :=
  if self.state ≠ State.FUNDED then
    (dbRec, false)
  else if dbRec.state = State.FUNDED ∧ dbRec.version = self.version then
    (mkExpired dbRec now, true)
  else
    (dbRec, false)

/-- Transition kinds an actor or the sweeper can attempt. -/
inductive TKind
  | fund
  | release
  | refund
  | expire
  deriving Repr, DecidableEq

/-- One serialized transition attempt against the current row.  Under the
views' `select_for_update(nowait=True)` guard each attempt loads the row
fresh, so the loaded instance and the database row coincide.  The boolean
reports whether the attempt committed a change. -/
def applyAttempt (db : Escrow) (k : TKind) (now : Int) (cfg : Option Int) :
    Escrow × Bool :=
  match k with
  | .fund =>
    match db.fund now cfg with
    | .ok e2 => (e2, true)
    | .error _ => (db, false)
  | .release =>
    match db.release db now with
    | .ok e2 => (e2, true)
    | .error _ => (db, false)
  | .refund =>
    match db.refund db now with
    | .ok e2 => (e2, true)
    | .error _ => (db, false)
  | .expire => db.expire db now

/-- A serialized sequence of transition attempts; returns the final row
and how many attempts committed. -/
def runAttempts (db : Escrow) (l : List (TKind × Int)) (cfg : Option Int) :
    Escrow × Nat :=
  match l with
  | [] => (db, 0)
  | (k, t) :: rest =>
    let s := applyAttempt db k t cfg
    let r := runAttempts s.1 rest cfg
    (r.1, (if s.2 then 1 else 0) + r.2)

/-- The validated creation payload reaching `EscrowSerializer.create`
(src/escrow/serializers.py).  `buyer_id` is declared read-only and is
additionally popped defensively inside `create`. -/
structure CreatePayload where
  buyer_id : Option String
  seller_id : Option String
  amount : Int
  currency : String
  deriving Repr, DecidableEq

/-- Outcome of serializer creation. -/
inductive CreateResult
  | validationError (field : String)
  | created (e : Escrow)
  deriving Repr, DecidableEq

/-- `EscrowSerializer.create` (src/escrow/serializers.py): buyer is the
authenticated user; `seller_id` must be present and non-blank (`if not
seller_id`); any client-supplied `buyer_id` is dropped; the new row is
CREATED with `version = 0` and the model-field defaults. -/
def EscrowSerializer.create (userId : String) (p : CreatePayload)
    (newId : Nat) (now : Int) : CreateResult :=
  match p.seller_id with
  | none => .validationError "seller_id"
  | some s =>
    if s = "" then .validationError "seller_id"
    else
      .created {
        id := newId,
        buyer_id := userId,
        seller_id := s,
        amount := p.amount,
        currency := p.currency,
        state := State.CREATED,
        expires_at := none,
        created_at := now,
        updated_at := now,
        funded_at := none,
        released_at := none,
        refunded_at := none,
        expired_at := none,
        version := 0 }

/-- Header-authenticated user (src/escrow/auth.py); `is_authenticated`
is always true for a `SimpleUser`, and authentication guarantees
`role` is `"buyer"` or `"seller"`. -/
structure SimpleUser where
  id : String
  role : String
  deriving Repr, DecidableEq

/-- `BuyerOnly.has_permission` (src/escrow/permissions.py). -/
def BuyerOnly.has_permission (u : SimpleUser) : Bool :=
  u.role == "buyer"

/-- `IsEscrowParticipant.has_object_permission`
(src/escrow/permissions.py); `safeMethod` is whether the request method
is in `SAFE_METHODS` (false for the POST transition actions). -/
def IsEscrowParticipant.has_object_permission (u : SimpleUser)
    (safeMethod : Bool) (obj : Escrow) : Bool :=
  if u.role == "buyer" then obj.buyer_id == u.id
  else if u.role == "seller" then
    (if safeMethod then obj.seller_id == u.id else false)
  else false

/-- Write actions exposed by `EscrowViewSet` (src/escrow/views.py). -/
inductive WriteKind
  | fund
  | release
  | refund
  deriving Repr, DecidableEq

/-- Caller-visible outcome of a write action.  The statuses 200, 400,
409 and 403 are returned in src/escrow/views.py (`ValueError` -> 400,
`DatabaseError` from the nowait lock -> 409, `PermissionDenied` -> 403);
`doesNotExist` is the uncaught `Escrow.DoesNotExist` that escapes the
view when the id has no row. -/
inductive ViewOutcome
  | ok200 (e : Escrow)
  | badRequest400
  | conflict409
  | forbidden403
  | doesNotExist
  deriving Repr, DecidableEq

/-- Modelled from the spec: the project settings module (exception
handler configuration) is not under src/, so the HTTP status carried by
the uncaught `DoesNotExist` error is taken from the spec, whose error
taxonomy defines `NotFound` as 404-equivalent. -/
def notFoundHttpStatus : Nat := 404

/-- HTTP status of a view outcome; all but `doesNotExist` are literal in
src/escrow/views.py. -/
def statusOf : ViewOutcome → Nat
  | .ok200 _ => 200
  | .badRequest400 => 400
  | .conflict409 => 409
  | .forbidden403 => 403
  | .doesNotExist => notFoundHttpStatus

/-- HTTP status the view gives a transition-method result: a returned
row serializes with 200, and both `ValueError` messages are caught by
the same `except ValueError` clause and returned as 400. -/
def viewTransitionStatus (res : Except TransitionError Escrow) : Nat :=
  match res with
  | .ok _ => 200
  | .error _ => 400

/-- Write the committed row back by primary key. -/
def updateById (db : List Escrow) (pk : Nat) (e2 : Escrow) : List Escrow :=
  db.map (fun r => if r.id = pk then e2 else r)

/-- One `fund`/`release`/`refund` request through `EscrowViewSet`
(src/escrow/views.py): `BuyerOnly.has_permission` gates the action;
`lockBusy` models `select_for_update(nowait=True)` raising
`DatabaseError` (caught as 409); an absent id raises `DoesNotExist`
(uncaught); then `check_object_permissions`, then the model transition
with `ValueError` caught as 400.  Under the row lock the loaded instance
is the current row, so the transition methods get a fresh snapshot. -/
def viewWrite (u : SimpleUser) (db : List Escrow) (pk : Nat)
    (k : WriteKind) (now : Int) (cfg : Option Int) (lockBusy : Bool) :
    ViewOutcome × List Escrow :=
  if ¬ BuyerOnly.has_permission u then (.forbidden403, db)
  else if lockBusy then (.conflict409, db)
  else
    match db.find? (fun r => r.id == pk) with
    | none => (.doesNotExist, db)
    | some escrow =>
      if ¬ IsEscrowParticipant.has_object_permission u false escrow then
        (.forbidden403, db)
      else
        match
          (match k with
           | .fund => escrow.fund now cfg
           | .release => escrow.release escrow now
           | .refund => escrow.refund escrow now) with
        | .ok e2 => (.ok200 e2, updateById db pk e2)
        | .error _ => (.badRequest400, db)

/-- Batch size of the expiration sweep (src/escrow/tasks.py). -/
def batchSize : Nat := 100

/-- The sweep's candidate filter: `state = FUNDED` and
`expires_at <= now` (a NULL `expires_at` never matches `__lte`). -/
def isEligible (now : Int) (e : Escrow) : Bool :=
  decide (e.state = State.FUNDED) &&
    (match e.expires_at with
     | some t => decide (t ≤ now)
     | none => false)

/-- Per-candidate body of the sweep loop (src/escrow/tasks.py): re-fetch
the row under `select_for_update`, skip it when it left FUNDED, else run
`Escrow.expire`'s conditional update and count it.  Candidate rows are
never deleted, so a vanished id is modelled as the skip branch. -/
def lockAndExpire (db : List Escrow) (pk : Nat) (now : Int) :
    List Escrow × Nat :=
  match db.find? (fun r => r.id == pk) with
  | none => (db, 0)
  | some locked =>
    if locked.state ≠ State.FUNDED then (db, 0)
    else
      (db.map (fun r =>
        if r.id = pk ∧ r.state = State.FUNDED ∧ r.version = locked.version
        then mkExpired r now else r), 1)

/-- The `for escrow in candidates` loop over one batch. -/
def processBatch (db : List Escrow) (cands : List Escrow) (now : Int) :
    List Escrow × Nat :=
  match cands with
  | [] => (db, 0)
  | c :: cs =>
    let s := lockAndExpire db c.id now
    let r := processBatch s.1 cs now
    (r.1, s.2 + r.2)

/-- The `while True` loop of `expire_funded_escrows`: query the first
`batchSize` eligible rows (the store is kept in id order), stop on an
empty batch, else process it and loop.  `fuel` bounds the number of loop
iterations; with unique row ids every nonempty batch strictly shrinks
the eligible set, so the initial fuel below is never exhausted. -/
def sweepAux (fuel : Nat) (db : List Escrow) (now : Int) :
    List Escrow × Nat :=
  match fuel with
  | 0 => (db, 0)
  | fuel2 + 1 =>
    let cands := (db.filter (isEligible now)).take batchSize
    if cands.isEmpty then (db, 0)
    else
      let s := processBatch db cands now
      let r := sweepAux fuel2 s.1 now
      (r.1, s.2 + r.2)

/-- `expire_funded_escrows` (src/escrow/tasks.py): returns the swept
store and the number of escrows expired this run. -/
def expire_funded_escrows (db : List Escrow) (now : Int) :
    List Escrow × Nat :=
  sweepAux ((db.filter (isEligible now)).length + 1) db now

/-- The store with every currently eligible row expired and every other
row untouched; the sweep is proved to compute exactly this. -/
def expireEligible (db : List Escrow) (now : Int) : List Escrow :=
  db.map (fun e => if isEligible now e then mkExpired e now else e)

/-- A concrete FUNDED row used to instantiate the theorems. -/
def fundedSample : Escrow :=
  { id := 1, buyer_id := "buyer-1", seller_id := "seller-1", amount := 1000,
    currency := "USD", state := State.FUNDED, expires_at := some 100,
    created_at := 0, updated_at := 0, funded_at := some 0,
    released_at := none, refunded_at := none, expired_at := none,
    version := 1 }

/-- The same row after a concurrent writer bumped its version: the loaded
snapshot `fundedSample` is now stale against it. -/
def staleRaceRow : Escrow := { fundedSample with version := 2 }

/-- A concrete CREATED row. -/
def createdSample : Escrow :=
  { id := 2, buyer_id := "buyer-1", seller_id := "seller-1", amount := 1000,
    currency := "USD", state := State.CREATED, expires_at := none,
    created_at := 0, updated_at := 0, funded_at := none,
    released_at := none, refunded_at := none, expired_at := none,
    version := 0 }

/-- The buyer of the sample rows. -/
def buyerUser : SimpleUser := { id := "buyer-1", role := "buyer" }

/-- The seller of the sample rows. -/
def sellerUser : SimpleUser := { id := "seller-1", role := "seller" }

/-- A creation payload with a non-positive amount and the seller equal to
the requesting buyer. -/
def badPayload : CreatePayload :=
  { buyer_id := none, seller_id := some "u1", amount := -500,
    currency := "USD" }

/-- A well-formed creation payload that also tries to smuggle a buyer id. -/
def goodPayload : CreatePayload :=
  { buyer_id := some "intruder", seller_id := some "seller-9",
    amount := 500, currency := "USD" }

/-- The row `EscrowSerializer.create "b9" goodPayload 3 0` produces. -/
def sampleCreatedRow : Escrow :=
  { id := 3, buyer_id := "b9", seller_id := "seller-9", amount := 500,
    currency := "USD", state := State.CREATED, expires_at := none,
    created_at := 0, updated_at := 0, funded_at := none,
    released_at := none, refunded_at := none, expired_at := none,
    version := 0 }

/-! ## Theorems -/

theorem applyAttempt_terminal (e : Escrow) (k : TKind) (n : Int)
    (cfg : Option Int) (h : e.state.isTerminal = true) :
    applyAttempt e k n cfg = (e, false) := by
  have hs : e.state ≠ State.CREATED ∧ e.state ≠ State.FUNDED := by
    cases hst : e.state <;> simp_all [State.isTerminal]
  cases k <;>
    simp [applyAttempt, Escrow.fund, Escrow.release, Escrow.refund,
      Escrow.expire, hs.1, hs.2]

theorem applyAttempt_funded (e : Escrow) (k : TKind) (n : Int)
    (cfg : Option Int) (hf : e.state = State.FUNDED)
    (hk : k ≠ TKind.fund) :
    (applyAttempt e k n cfg).2 = true ∧
    (applyAttempt e k n cfg).1.version = e.version + 1 ∧
    (applyAttempt e k n cfg).1.state.isTerminal = true := by
  cases k
  · exact absurd rfl hk
  all_goals
    simp [applyAttempt, Escrow.release, Escrow.refund, Escrow.expire,
      mkExpired, hf, State.isTerminal]

theorem runAttempts_terminal (e : Escrow) (l : List (TKind × Int))
    (cfg : Option Int) (h : e.state.isTerminal = true) :
    runAttempts e l cfg = (e, 0) := by
  induction l with
  | nil => rfl
  | cons p rest ih =>
    obtain ⟨k, t⟩ := p
    simp [runAttempts, applyAttempt_terminal e k t cfg h, ih]

/-- C1: from FUNDED, any nonempty serialized sequence of release, refund
and expire attempts commits exactly once: the final state is terminal, the
version rises by exactly 1 in total across all attempts, and no transition
of any kind ever changes a row already in a terminal state. -/
theorem race_single_winner (db : Escrow) (l : List (TKind × Int))
    (cfg : Option Int) (hf : db.state = State.FUNDED) (hne : l ≠ [])
    (hk : ∀ p ∈ l, p.1 ≠ TKind.fund) :
    (runAttempts db l cfg).2 = 1 ∧
    (runAttempts db l cfg).1.version = db.version + 1 ∧
    (runAttempts db l cfg).1.state.isTerminal = true ∧
    (∀ (e : Escrow) (k : TKind) (n : Int),
      e.state.isTerminal = true → applyAttempt e k n cfg = (e, false)) := by
  match l with
  | [] => exact absurd rfl hne
  | (k, t) :: rest =>
    have hk1 : k ≠ TKind.fund := hk (k, t) (List.mem_cons_self _ _)
    obtain ⟨hc, hv, ht⟩ := applyAttempt_funded db k t cfg hf hk1
    have hrest := runAttempts_terminal (applyAttempt db k t cfg).1 rest cfg ht
    refine ⟨?_, ?_, ?_, fun e k2 n h2 => applyAttempt_terminal e k2 n cfg h2⟩ <;>
      simp [runAttempts, hrest, hc, hv, ht]

/-- C1 witness: a concrete FUNDED escrow hit by release, refund and expire
in sequence. -/
theorem race_single_winner_witness :
    (runAttempts fundedSample
      [(TKind.release, 5), (TKind.refund, 6), (TKind.expire, 7)] none).2 = 1 ∧
    (runAttempts fundedSample
      [(TKind.release, 5), (TKind.refund, 6), (TKind.expire, 7)] none).1.version =
      fundedSample.version + 1 ∧
    (runAttempts fundedSample
      [(TKind.release, 5), (TKind.refund, 6), (TKind.expire, 7)] none).1.state.isTerminal
      = true ∧
    (∀ (e : Escrow) (k : TKind) (n : Int),
      e.state.isTerminal = true → applyAttempt e k n none = (e, false)) :=
  race_single_winner fundedSample
    [(TKind.release, 5), (TKind.refund, 6), (TKind.expire, 7)] none rfl
    (by decide) (by decide)

/-- C2: expire on a non-FUNDED escrow is a no-op success: `Escrow.expire`
returns without error and without touching any field (version included),
and the sweep loop body skips such a row, contributing 0 to the count and
leaving the store unchanged. -/
theorem expire_nonfunded_noop (self dbRec : Escrow) (now : Int)
    (db : List Escrow) (pk : Nat) (locked : Escrow)
    (h : self.state ≠ State.FUNDED)
    (hfind : db.find? (fun r => r.id == pk) = some locked)
    (hl : locked.state ≠ State.FUNDED) :
    Escrow.expire self dbRec now = (dbRec, false) ∧
    lockAndExpire db pk now = (db, 0) := by
  constructor
  · simp [Escrow.expire, h]
  · simp [lockAndExpire, hfind, hl]

/-- C2 witness: expire on a CREATED row. -/
theorem expire_nonfunded_noop_witness :
    Escrow.expire createdSample createdSample 5 = (createdSample, false) ∧
    lockAndExpire [createdSample] 2 5 = ([createdSample], 0) :=
  expire_nonfunded_noop createdSample createdSample 5 [createdSample] 2
    createdSample (by decide) (by decide) (by decide)

/-- C3 counterexample: a release whose conditional commit loses the
version match raises the `ValueError` that the view catches as 400 Bad
Request, not the claimed 409 Busy. -/
theorem version_conflict_gets_400_not_409 :
    Escrow.release fundedSample staleRaceRow 5 =
      Except.error TransitionError.versionConflict ∧
    viewTransitionStatus (Escrow.release fundedSample staleRaceRow 5) = 400 ∧
    ¬ viewTransitionStatus (Escrow.release fundedSample staleRaceRow 5) = 409 :=
  ⟨rfl, rfl, by decide⟩

/-- C3 amended: when the conditional commit of a guarded release or refund
fails the state/version match, the caller-visible result is 400 (the
`ValueError` caught as Rejected), never 409 Busy; 409 arises only from the
nowait lock's `DatabaseError`. -/
theorem version_conflict_is_rejected (self dbRec : Escrow) (now : Int)
    (hs : self.state = State.FUNDED)
    (hmiss : ¬ (dbRec.state = State.FUNDED ∧ dbRec.version = self.version)) :
    Escrow.release self dbRec now =
      Except.error TransitionError.versionConflict ∧
    viewTransitionStatus (Escrow.release self dbRec now) = 400 ∧
    Escrow.refund self dbRec now =
      Except.error TransitionError.versionConflict ∧
    viewTransitionStatus (Escrow.refund self dbRec now) = 400 := by
  have h1 : Escrow.release self dbRec now =
      Except.error TransitionError.versionConflict := by
    simp [Escrow.release, hs, hmiss]
  have h2 : Escrow.refund self dbRec now =
      Except.error TransitionError.versionConflict := by
    simp [Escrow.refund, hs, hmiss]
  exact ⟨h1, by rw [h1]; rfl, h2, by rw [h2]; rfl⟩

/-- C3 amended witness: the stale snapshot against the bumped row. -/
theorem version_conflict_is_rejected_witness :
    Escrow.release fundedSample staleRaceRow 9 =
      Except.error TransitionError.versionConflict ∧
    viewTransitionStatus (Escrow.release fundedSample staleRaceRow 9) = 400 ∧
    Escrow.refund fundedSample staleRaceRow 9 =
      Except.error TransitionError.versionConflict ∧
    viewTransitionStatus (Escrow.refund fundedSample staleRaceRow 9) = 400 :=
  version_conflict_is_rejected fundedSample staleRaceRow 9 rfl (by decide)

/-- C4 counterexample: a payload with `amount = -500` and the seller equal
to the requesting buyer is accepted and creates a row, instead of failing
`InvalidArgument`. -/
theorem create_accepts_invalid_args :
    badPayload.amount ≤ 0 ∧
    badPayload.seller_id = some "u1" ∧
    EscrowSerializer.create "u1" badPayload 7 0 =
      CreateResult.created
        { id := 7, buyer_id := "u1", seller_id := "u1",
          amount := -500, currency := "USD", state := State.CREATED,
          expires_at := none, created_at := 0, updated_at := 0,
          funded_at := none, released_at := none, refunded_at := none,
          expired_at := none, version := 0 } := by
  decide

/-- C4 amended: creation validates only that a non-blank `seller_id` is
present; it never checks `amount > 0` or `seller ≠ buyer`, so any payload
with a non-blank seller id creates a row, including when `amount ≤ 0` or
the seller equals the buyer. -/
theorem create_validates_only_seller_presence (uid : String)
    (p : CreatePayload) (nid : Nat) (now : Int) :
    ((p.seller_id = none ∨ p.seller_id = some "") →
      EscrowSerializer.create uid p nid now =
        CreateResult.validationError "seller_id") ∧
    (∀ s, p.seller_id = some s → s ≠ "" →
      EscrowSerializer.create uid p nid now =
        CreateResult.created
          { id := nid, buyer_id := uid, seller_id := s,
            amount := p.amount, currency := p.currency,
            state := State.CREATED, expires_at := none, created_at := now,
            updated_at := now, funded_at := none, released_at := none,
            refunded_at := none, expired_at := none, version := 0 }) := by
  constructor
  · rintro (h | h) <;> simp [EscrowSerializer.create, h]
  · intro s hs hne
    simp [EscrowSerializer.create, hs, hne]

/-- C4 amended witness: the invalid payload goes through. -/
theorem create_validates_only_seller_presence_witness :
    EscrowSerializer.create "u1" badPayload 7 1 =
      CreateResult.created
        { id := 7, buyer_id := "u1", seller_id := "u1",
          amount := badPayload.amount, currency := badPayload.currency,
          state := State.CREATED, expires_at := none, created_at := 1,
          updated_at := 1, funded_at := none, released_at := none,
          refunded_at := none, expired_at := none, version := 0 } :=
  (create_validates_only_seller_presence "u1" badPayload 7 1).2 "u1" rfl
    (by decide)

theorem viewWrite_no_commit_or_ok (u : SimpleUser) (db : List Escrow)
    (pk : Nat) (k : WriteKind) (n : Int) (c : Option Int) (lb : Bool) :
    (viewWrite u db pk k n c lb).2 = db ∨
    (∃ e2, (viewWrite u db pk k n c lb).1 = ViewOutcome.ok200 e2) := by
  unfold viewWrite
  split
  · exact Or.inl rfl
  · split
    · exact Or.inl rfl
    · split
      · exact Or.inl rfl
      · split
        · exact Or.inl rfl
        · split
          · exact Or.inr ⟨_, rfl⟩
          · exact Or.inl rfl

/-- C5: a rejected transition attempt leaves the store entirely unchanged;
in particular a fund request on a non-CREATED escrow by its authorized
buyer returns 400 and every field of every row keeps its prior value. -/
theorem rejected_transition_unchanged (u : SimpleUser) (db : List Escrow)
    (pk : Nat) (now : Int) (cfg : Option Int) (e : Escrow)
    (hfind : db.find? (fun r => r.id == pk) = some e)
    (hrole : u.role = "buyer") (hown : e.buyer_id = u.id)
    (hstate : e.state ≠ State.CREATED) :
    viewWrite u db pk WriteKind.fund now cfg false =
      (ViewOutcome.badRequest400, db) ∧
    (∀ (u2 : SimpleUser) (db2 : List Escrow) (pk2 : Nat) (k2 : WriteKind)
      (n2 : Int) (c2 : Option Int) (l2 : Bool),
      (∀ e2, (viewWrite u2 db2 pk2 k2 n2 c2 l2).1 ≠ ViewOutcome.ok200 e2) →
      (viewWrite u2 db2 pk2 k2 n2 c2 l2).2 = db2) := by
  constructor
  · have hperm : BuyerOnly.has_permission u = true := by
      simp [BuyerOnly.has_permission, hrole]
    have hobj : IsEscrowParticipant.has_object_permission u false e = true := by
      simp [IsEscrowParticipant.has_object_permission, hrole, hown]
    simp [viewWrite, hperm, hfind, hobj, Escrow.fund, hstate]
  · intro u2 db2 pk2 k2 n2 c2 l2 hne
    rcases viewWrite_no_commit_or_ok u2 db2 pk2 k2 n2 c2 l2 with h | ⟨e2, h⟩
    · exact h
    · exact absurd h (hne e2)

/-- C5 witness: funding an already-FUNDED escrow. -/
theorem rejected_transition_unchanged_witness :
    viewWrite buyerUser [fundedSample] 1 WriteKind.fund 3 none false =
      (ViewOutcome.badRequest400, [fundedSample]) :=
  (rejected_transition_unchanged buyerUser [fundedSample] 1 3 none
    fundedSample (by decide) rfl rfl (by decide)).1

/-- C6: fund from CREATED moves to FUNDED, sets `funded_at = now` and
`expires_at = now + window` with a 24-hour default window, and bumps the
version by exactly 1; no other operation (creation, release, refund or
expire) ever writes `expires_at`. -/
theorem fund_sets_expiry (e : Escrow) (now : Int) (cfg : Option Int)
    (h : e.state = State.CREATED) :
    Escrow.fund e now cfg =
      Except.ok
        { e with
          funded_at := some now,
          expires_at := some (now + cfg.getD defaultExpirationSeconds),
          state := State.FUNDED, version := e.version + 1,
          updated_at := now } ∧
    defaultExpirationSeconds = 24 * 3600 ∧
    (∀ s d n2 r, Escrow.release s d n2 = Except.ok r →
      r.expires_at = d.expires_at) ∧
    (∀ s d n2 r, Escrow.refund s d n2 = Except.ok r →
      r.expires_at = d.expires_at) ∧
    (∀ s d n2, (Escrow.expire s d n2).1.expires_at = d.expires_at) ∧
    (∀ uid p nid n2 r,
      EscrowSerializer.create uid p nid n2 = CreateResult.created r →
      r.expires_at = none) := by
  refine ⟨by simp [Escrow.fund, h], rfl, ?_, ?_, ?_, ?_⟩
  · intro s d n2 r hr
    unfold Escrow.release at hr
    split at hr
    · simp at hr
    · split at hr
      · injection hr with h2
        rw [← h2]
      · simp at hr
  · intro s d n2 r hr
    unfold Escrow.refund at hr
    split at hr
    · simp at hr
    · split at hr
      · injection hr with h2
        rw [← h2]
      · simp at hr
  · intro s d n2
    unfold Escrow.expire
    split
    · rfl
    · split
      · rfl
      · rfl
  · intro uid p nid n2 r hr
    unfold EscrowSerializer.create at hr
    split at hr
    · simp at hr
    · split at hr
      · simp at hr
      · injection hr with h2
        rw [← h2]

/-- C6 witness: funding the CREATED sample with no configured window. -/
theorem fund_sets_expiry_witness :
    Escrow.fund createdSample 10 none =
      Except.ok
        { createdSample with
          funded_at := some 10,
          expires_at := some (10 + defaultExpirationSeconds),
          state := State.FUNDED, version := createdSample.version + 1,
          updated_at := 10 } :=
  (fund_sets_expiry createdSample 10 none rfl).1

/-- C8: a fund/release/refund request whose id has no stored row fails
with the store's not-found error (`DoesNotExist`), mapped to 404, and the
store is unchanged. -/
theorem unknown_id_not_found (u : SimpleUser) (db : List Escrow) (pk : Nat)
    (k : WriteKind) (now : Int) (cfg : Option Int)
    (hperm : BuyerOnly.has_permission u = true)
    (hfind : db.find? (fun r => r.id == pk) = none) :
    viewWrite u db pk k now cfg false = (ViewOutcome.doesNotExist, db) ∧
    statusOf (viewWrite u db pk k now cfg false).1 = 404 := by
  have h1 : viewWrite u db pk k now cfg false =
      (ViewOutcome.doesNotExist, db) := by
    simp [viewWrite, hperm, hfind]
  exact ⟨h1, by rw [h1]; rfl⟩

/-- C8 witness: a buyer funding an id with no row. -/
theorem unknown_id_not_found_witness :
    viewWrite buyerUser [fundedSample] 99 WriteKind.fund 3 none false =
      (ViewOutcome.doesNotExist, [fundedSample]) ∧
    statusOf (viewWrite buyerUser [fundedSample] 99 WriteKind.fund 3 none
      false).1 = 404 :=
  unknown_id_not_found buyerUser [fundedSample] 99 WriteKind.fund 3 none
    (by decide) (by decide)

/-- C9: the stored buyer is always the authenticated actor: a payload
buyer_id is discarded without effect, a missing seller_id fails
validation, and any created row starts CREATED at version 0. -/
theorem create_uses_authenticated_buyer (uid : String) (p : CreatePayload)
    (nid : Nat) (now : Int) :
    (∀ x, EscrowSerializer.create uid { p with buyer_id := x } nid now =
      EscrowSerializer.create uid p nid now) ∧
    (p.seller_id = none →
      EscrowSerializer.create uid p nid now =
        CreateResult.validationError "seller_id") ∧
    (∀ e, EscrowSerializer.create uid p nid now = CreateResult.created e →
      e.buyer_id = uid ∧ e.state = State.CREATED ∧ e.version = 0) := by
  refine ⟨fun x => rfl, fun h => by simp [EscrowSerializer.create, h], ?_⟩
  intro e he
  unfold EscrowSerializer.create at he
  split at he
  · simp at he
  · split at he
    · simp at he
    · injection he with h2
      rw [← h2]
      exact ⟨rfl, rfl, rfl⟩

/-- C9 witness: a payload carrying a foreign buyer id still yields a row
owned by the authenticated buyer. -/
theorem create_uses_authenticated_buyer_witness :
    sampleCreatedRow.buyer_id = "b9" ∧
    sampleCreatedRow.state = State.CREATED ∧
    sampleCreatedRow.version = 0 :=
  (create_uses_authenticated_buyer "b9" goodPayload 3 0).2.2 sampleCreatedRow
    (by decide)

/-- C10: a seller's write request is rejected Forbidden with the store
untouched, before any transition logic; any write action that commits was
issued by the target escrow's own buyer. -/
theorem seller_cannot_transition (u : SimpleUser) (db : List Escrow)
    (pk : Nat) (k : WriteKind) (now : Int) (cfg : Option Int) (lb : Bool) :
    (u.role = "seller" →
      viewWrite u db pk k now cfg lb = (ViewOutcome.forbidden403, db)) ∧
    (∀ e2, (viewWrite u db pk k now cfg lb).1 = ViewOutcome.ok200 e2 →
      u.role = "buyer" ∧
      ∃ e, db.find? (fun r => r.id == pk) = some e ∧ e.buyer_id = u.id) := by
  constructor
  · intro h
    simp [viewWrite, BuyerOnly.has_permission, h]
  · intro e2 h
    by_cases h1 : BuyerOnly.has_permission u = true
    · by_cases h2 : lb = true
      · simp [viewWrite, h1, h2] at h
      · rcases hfind : db.find? (fun r => r.id == pk) with _ | e
        · simp [viewWrite, h1, h2, hfind] at h
        · have hb : u.role = "buyer" := by
            simpa [BuyerOnly.has_permission] using h1
          by_cases h3 :
              IsEscrowParticipant.has_object_permission u false e = true
          · have hbuy : e.buyer_id = u.id := by
              simpa [IsEscrowParticipant.has_object_permission, hb] using h3
            exact ⟨hb, e, hfind, hbuy⟩
          · simp [viewWrite, h1, h2, hfind, h3] at h
    · simp [viewWrite, h1] at h

/-- C10 witness: the sample seller attempting release. -/
theorem seller_cannot_transition_witness :
    viewWrite sellerUser [fundedSample] 1 WriteKind.release 4 none false =
      (ViewOutcome.forbidden403, [fundedSample]) :=
  (seller_cannot_transition sellerUser [fundedSample] 1 WriteKind.release 4
    none false).1 rfl

theorem mkExpired_id (e : Escrow) (n : Int) : (mkExpired e n).id = e.id := rfl

theorem isEligible_mkExpired (now n : Int) (e : Escrow) :
    isEligible now (mkExpired e n) = false := by
  simp [isEligible, mkExpired]

theorem find?_id_of_nodup : ∀ (db : List Escrow) (c : Escrow),
    (db.map Escrow.id).Nodup → c ∈ db →
    db.find? (fun r => r.id == c.id) = some c := by
  intro db
  induction db with
  | nil => intro c _ hc; cases hc
  | cons b tl ih =>
    intro c hnd hc
    rw [List.map_cons, List.nodup_cons] at hnd
    rcases List.mem_cons.mp hc with rfl | htl
    · exact List.find?_cons_of_pos tl (by simp)
    · have hne : ¬ (b.id == c.id) = true := by
        intro h
        have hcid : c.id ∈ List.map Escrow.id tl :=
          List.mem_map_of_mem Escrow.id htl
        rw [eq_of_beq h] at hnd
        exact hnd.1 hcid
      rw [List.find?_cons_of_neg tl hne]
      exact ih c hnd.2 htl

theorem eq_of_mem_same_id : ∀ (db : List Escrow) (x c : Escrow),
    (db.map Escrow.id).Nodup → x ∈ db → c ∈ db → x.id = c.id → x = c := by
  intro db
  induction db with
  | nil => intro x c _ hx _ _; cases hx
  | cons b tl ih =>
    intro x c hnd hx hc hid
    rw [List.map_cons, List.nodup_cons] at hnd
    rcases List.mem_cons.mp hx with rfl | hx2
    · rcases List.mem_cons.mp hc with rfl | hc2
      · rfl
      · exfalso
        apply hnd.1
        rw [hid]
        exact List.mem_map_of_mem Escrow.id hc2
    · rcases List.mem_cons.mp hc with rfl | hc2
      · exfalso
        apply hnd.1
        rw [← hid]
        exact List.mem_map_of_mem Escrow.id hx2
      · exact ih x c hnd.2 hx2 hc2 hid

theorem lockAndExpire_eligible (db : List Escrow) (c : Escrow) (now : Int)
    (hnd : (db.map Escrow.id).Nodup) (hc : c ∈ db)
    (hf : c.state = State.FUNDED) :
    lockAndExpire db c.id now =
      (db.map (fun x => if x.id = c.id then mkExpired x now else x), 1) := by
  unfold lockAndExpire
  rw [find?_id_of_nodup db c hnd hc]
  simp only []
  rw [if_neg (by simp [hf])]
  refine congrArg (fun l => (l, 1)) ?_
  apply List.map_congr_left
  intro x hx
  by_cases hid : x.id = c.id
  · have hxc : x = c := eq_of_mem_same_id db x c hnd hx hc hid
    subst hxc
    simp [hf, hid]
  · simp [hid]

theorem map_preserve_ids (db : List Escrow) (f : Escrow → Escrow)
    (h : ∀ x, (f x).id = x.id) :
    (db.map f).map Escrow.id = db.map Escrow.id := by
  rw [List.map_map]
  exact List.map_congr_left (fun x _ => h x)

theorem filter_map_length (l : List Escrow) (f : Escrow → Escrow)
    (p q : Escrow → Bool) (h : ∀ x ∈ l, p (f x) = q x) :
    ((l.map f).filter p).length = (l.filter q).length := by
  induction l with
  | nil => rfl
  | cons a tl ih =>
    have ha := h a (List.mem_cons_self a tl)
    have ih2 := ih (fun x hx => h x (List.mem_cons_of_mem a hx))
    simp only [List.map_cons, List.filter_cons, ha]
    cases q a <;> simp [ih2]

theorem processBatch_spec : ∀ (cs db : List Escrow) (now : Int),
    (db.map Escrow.id).Nodup → (cs.map Escrow.id).Nodup →
    (∀ c ∈ cs, c ∈ db ∧ c.state = State.FUNDED) →
    processBatch db cs now =
      (db.map (fun x =>
        if x.id ∈ cs.map Escrow.id then mkExpired x now else x),
       cs.length) := by
  intro cs
  induction cs with
  | nil =>
    intro db now _ _ _
    simp [processBatch]
  | cons c cs ih =>
    intro db now hnd hcs hmem
    obtain ⟨hcdb, hcf⟩ := hmem c (List.mem_cons_self c cs)
    rw [List.map_cons, List.nodup_cons] at hcs
    have hstep := lockAndExpire_eligible db c now hnd hcdb hcf
    have hfid : ∀ x : Escrow,
        ((fun x => if x.id = c.id then mkExpired x now else x) x).id = x.id := by
      intro x
      by_cases h : x.id = c.id <;> simp [h, mkExpired]
    have hnd2 : ((db.map
        (fun x => if x.id = c.id then mkExpired x now else x)).map
          Escrow.id).Nodup := by
      rw [map_preserve_ids db _ hfid]
      exact hnd
    have hmem2 : ∀ a ∈ cs,
        a ∈ db.map (fun x => if x.id = c.id then mkExpired x now else x) ∧
        a.state = State.FUNDED := by
      intro a ha
      obtain ⟨hadb, haf⟩ := hmem a (List.mem_cons_of_mem c ha)
      have haid : a.id ≠ c.id := by
        intro h
        apply hcs.1
        rw [← h]
        exact List.mem_map_of_mem Escrow.id ha
      refine ⟨?_, haf⟩
      have hfa : (fun x => if x.id = c.id then mkExpired x now else x) a = a := by
        simp [haid]
      rw [← hfa]
      exact List.mem_map_of_mem _ hadb
    have ihr := ih (db.map (fun x => if x.id = c.id then mkExpired x now else x))
      now hnd2 hcs.2 hmem2
    simp only [processBatch, hstep, ihr, List.map_map]
    refine Prod.ext ?_ (by simp [Nat.add_comm])
    simp only []
    apply List.map_congr_left
    intro x hx
    by_cases hid : x.id = c.id
    · simp only [Function.comp_apply, if_pos hid, mkExpired_id]
      rw [if_neg, if_pos]
      · rw [List.map_cons, hid]
        exact List.mem_cons_self _ _
      · rw [hid]
        exact hcs.1
    · simp only [Function.comp_apply, if_neg hid]
      by_cases hmm : x.id ∈ cs.map Escrow.id
      · rw [if_pos hmm, if_pos]
        rw [List.map_cons]
        exact List.mem_cons_of_mem _ hmm
      · rw [if_neg hmm, if_neg]
        rw [List.map_cons]
        intro h
        rcases List.mem_cons.mp h with h2 | h2
        · exact hid h2
        · exact hmm h2

theorem filter_not_mem_take (F : List Escrow) (n : Nat) (hF : F.Nodup) :
    F.filter (fun x => !(decide (x ∈ F.take n))) = F.drop n := by
  have hsplit : F.filter (fun x => !(decide (x ∈ F.take n))) =
      (F.take n ++ F.drop n).filter (fun x => !(decide (x ∈ F.take n))) := by
    rw [List.take_append_drop]
  have hdisj := List.disjoint_take_drop (m := n) (n := n) hF (Nat.le_refl _)
  rw [hsplit, List.filter_append,
    List.filter_eq_nil_iff.mpr (fun a ha => by simp [ha]),
    List.filter_eq_self.mpr (fun a ha => by
      simp only [Bool.not_eq_true']
      rw [decide_eq_false_iff_not]
      intro hc
      exact hdisj hc ha)]
  rfl

theorem sweepAux_spec : ∀ (fuel : Nat) (db : List Escrow) (now : Int),
    (db.map Escrow.id).Nodup →
    (db.filter (isEligible now)).length < fuel →
    sweepAux fuel db now =
      (expireEligible db now, (db.filter (isEligible now)).length) := by
  intro fuel
  induction fuel with
  | zero =>
    intro db now _ h
    exact absurd h (Nat.not_lt_zero _)
  | succ fuel ih =>
    intro db now hnd hlt
    by_cases hempty : ((db.filter (isEligible now)).take batchSize).isEmpty
    · have hfe : db.filter (isEligible now) = [] := by
        rcases List.take_eq_nil_iff.mp (List.isEmpty_iff.mp hempty) with h | h
        · exact absurd h (by decide)
        · exact h
      have hall := List.filter_eq_nil_iff.mp hfe
      have hexp : expireEligible db now = db := by
        unfold expireEligible
        calc db.map (fun e => if isEligible now e then mkExpired e now else e)
            = db.map id := List.map_congr_left (fun e he => by simp [hall e he])
          _ = db := List.map_id db
      simp only [sweepAux]
      rw [if_pos hempty, hexp, hfe]
      rfl
    · -- nonempty batch
      have hcne : (db.filter (isEligible now)).take batchSize ≠ [] := by
        intro h
        rw [h] at hempty
        exact hempty rfl
      have hFne : db.filter (isEligible now) ≠ [] := by
        intro h
        rw [h] at hcne
        exact hcne rfl
      have hFpos : 0 < (db.filter (isEligible now)).length :=
        List.length_pos.mpr hFne
      have hsub : ((db.filter (isEligible now)).take batchSize).Sublist db :=
        (List.take_sublist _ _).trans (List.filter_sublist db)
      have hcnd : (((db.filter (isEligible now)).take batchSize).map
          Escrow.id).Nodup :=
        List.Nodup.sublist (List.Sublist.map Escrow.id hsub) hnd
      have hmemc : ∀ c ∈ (db.filter (isEligible now)).take batchSize,
          c ∈ db ∧ c.state = State.FUNDED := by
        intro c hcc
        have hcf : c ∈ db.filter (isEligible now) := List.mem_of_mem_take hcc
        have hm := List.mem_filter.mp hcf
        refine ⟨hm.1, ?_⟩
        have hb := hm.2
        unfold isEligible at hb
        rw [Bool.and_eq_true] at hb
        exact of_decide_eq_true hb.1
      have hbatch := processBatch_spec
        ((db.filter (isEligible now)).take batchSize) db now hnd hcnd hmemc
      have hidmem : ∀ x ∈ db,
          x.id ∈ ((db.filter (isEligible now)).take batchSize).map Escrow.id ↔
          x ∈ (db.filter (isEligible now)).take batchSize := by
        intro x hx
        constructor
        · intro h
          obtain ⟨c, hcc, hcid⟩ := List.mem_map.mp h
          have hxc := eq_of_mem_same_id db x c hnd hx (hmemc c hcc).1 hcid.symm
          rw [hxc]
          exact hcc
        · intro h
          exact List.mem_map_of_mem Escrow.id h
      have hfid : ∀ x : Escrow,
          (if x.id ∈ ((db.filter (isEligible now)).take batchSize).map
            Escrow.id then mkExpired x now else x).id = x.id := by
        intro x
        by_cases h : x.id ∈ ((db.filter (isEligible now)).take batchSize).map
          Escrow.id
        · rw [if_pos h]
          rfl
        · rw [if_neg h]
      have hnd2 : ((db.map (fun x =>
          if x.id ∈ ((db.filter (isEligible now)).take batchSize).map
            Escrow.id then mkExpired x now else x)).map Escrow.id).Nodup := by
        rw [map_preserve_ids db _ hfid]
        exact hnd
      have hFnd : (db.filter (isEligible now)).Nodup :=
        List.Nodup.filter _ (List.Nodup.of_map Escrow.id hnd)
      have hlen2 : ((db.map (fun x =>
          if x.id ∈ ((db.filter (isEligible now)).take batchSize).map
            Escrow.id then mkExpired x now else x)).filter
              (isEligible now)).length =
          (db.filter (isEligible now)).length - batchSize := by
        have hpt : ∀ x ∈ db,
            isEligible now ((fun x =>
              if x.id ∈ ((db.filter (isEligible now)).take batchSize).map
                Escrow.id then mkExpired x now else x) x) =
            (isEligible now x &&
              !(decide (x ∈ (db.filter (isEligible now)).take batchSize))) := by
          intro x hx
          by_cases h : x.id ∈ ((db.filter (isEligible now)).take batchSize).map
            Escrow.id
          · have hxc := (hidmem x hx).mp h
            simp only []
            rw [if_pos h]
            simp [isEligible_mkExpired, hxc]
          · have hxc : x ∉ (db.filter (isEligible now)).take batchSize :=
              fun hc => h ((hidmem x hx).mpr hc)
            simp only []
            rw [if_neg h]
            simp [hxc]
        rw [filter_map_length db _ _ _ hpt]
        have h1 : db.filter (fun x => isEligible now x &&
            !(decide (x ∈ (db.filter (isEligible now)).take batchSize))) =
            (db.filter (isEligible now)).filter (fun x =>
              !(decide (x ∈ (db.filter (isEligible now)).take batchSize))) := by
          rw [List.filter_filter]
          exact List.filter_congr (fun x _ => Bool.and_comm _ _)
        rw [h1, filter_not_mem_take _ _ hFnd, List.length_drop]
      have hrec := ih (db.map (fun x =>
          if x.id ∈ ((db.filter (isEligible now)).take batchSize).map
            Escrow.id then mkExpired x now else x)) now hnd2 (by
        rw [hlen2]
        have hbs : batchSize = 100 := rfl
        omega)
      have hexp2 : expireEligible (db.map (fun x =>
          if x.id ∈ ((db.filter (isEligible now)).take batchSize).map
            Escrow.id then mkExpired x now else x)) now =
          expireEligible db now := by
        unfold expireEligible
        rw [List.map_map]
        apply List.map_congr_left
        intro x hx
        by_cases h : x.id ∈ ((db.filter (isEligible now)).take batchSize).map
          Escrow.id
        · have hxc := (hidmem x hx).mp h
          have hex : isEligible now x = true :=
            (List.mem_filter.mp (List.mem_of_mem_take hxc)).2
          simp only [Function.comp_apply]
          rw [if_pos h]
          simp [isEligible_mkExpired, hex]
        · simp only [Function.comp_apply]
          rw [if_neg h]
      have hclen : ((db.filter (isEligible now)).take batchSize).length =
          min batchSize (db.filter (isEligible now)).length := by
        rw [List.length_take]
      simp only [sweepAux]
      rw [if_neg hempty, hbatch]
      simp only [hrec, hexp2, hlen2]
      refine Prod.ext rfl ?_
      simp only []
      rw [hclen]
      have hbs : batchSize = 100 := rfl
      omega

/-- C7: one run of the expiration sweep transitions to EXPIRED exactly the
FUNDED escrows with `expires_at <= now`, returns their count, and an
immediately repeated run with no newly eligible rows changes nothing and
returns 0. -/
theorem sweep_expires_exactly_eligible (db : List Escrow) (now : Int)
    (hnd : (db.map Escrow.id).Nodup) :
    (expire_funded_escrows db now).2 = (db.filter (isEligible now)).length ∧
    (expire_funded_escrows db now).1 = expireEligible db now ∧
    expire_funded_escrows (expire_funded_escrows db now).1 now =
      ((expire_funded_escrows db now).1, 0) := by
  have h1 : expire_funded_escrows db now =
      (expireEligible db now, (db.filter (isEligible now)).length) :=
    sweepAux_spec ((db.filter (isEligible now)).length + 1) db now hnd
      (Nat.lt_succ_self _)
  refine ⟨by rw [h1], by rw [h1], ?_⟩
  rw [h1]
  have hfe : (expireEligible db now).filter (isEligible now) = [] := by
    rw [List.filter_eq_nil_iff]
    intro a ha
    obtain ⟨x, hx, hxa⟩ := List.mem_map.mp ha
    by_cases h : isEligible now x = true
    · rw [← hxa]
      simp [h, isEligible_mkExpired]
    · rw [← hxa]
      simp [h]
  simp [expire_funded_escrows, sweepAux, hfe]

/-- C7 witness: a store with one eligible FUNDED row and one CREATED row. -/
theorem sweep_expires_exactly_eligible_witness :
    (expire_funded_escrows [fundedSample, createdSample] 200).2 =
      ([fundedSample, createdSample].filter (isEligible 200)).length ∧
    (expire_funded_escrows [fundedSample, createdSample] 200).1 =
      expireEligible [fundedSample, createdSample] 200 ∧
    expire_funded_escrows
      (expire_funded_escrows [fundedSample, createdSample] 200).1 200 =
      ((expire_funded_escrows [fundedSample, createdSample] 200).1, 0) :=
  sweep_expires_exactly_eligible [fundedSample, createdSample] 200 (by decide)

end EscrowService
